import Mathlib

/-!
Verification development for the Mayo unit-conversion engine
(`src/base/unit_system.cpp`).  The C++ code is shallowly embedded:
`double` values are modelled as exact rationals (`ℚ`), the
`TranslateResult` aggregate becomes a structure whose possibly-null
`strUnit` field is an `Option String`, and the value-initialized
failure sentinel `TranslateResult{}` returned by `parseQuantity`
is modelled as `none`.
-/

namespace Mayo

/-- The `Mayo::Unit` enumeration (unit_system.h): a closed set of
physical dimensions. -/
inductive Unit where
  | None
  | Length
  | Mass
  | Time
  | ElectricCurrent
  | ThermodynamicTemperature
  | AmountOfSubstance
  | LuminousIntensity
  | Angle
  | Area
  | Volume
  | Velocity
  | Acceleration
  | Density
  | Pressure
deriving DecidableEq, Repr

/-- The `Mayo::UnitSystem::Schema` enumeration. -/
inductive Schema where
  | SI
  | ImperialUK
deriving DecidableEq, Repr

/-- `Mayo::UnitSystem::TranslateResult`: `{value, strUnit, factor}`.
The C++ `strUnit` is a `const char*` that may be null; it is modelled
as `Option String` (`none` for `nullptr`). -/
structure TranslateResult where
  value : ℚ
  str : Option String
  factor : ℚ
deriving DecidableEq, Repr

/-- The external OpenCASCADE constant `Quantity_Degree.value()`
(one degree expressed in the radian base, numerically `π/180`).
The library is outside this repository; the constant is represented
by a fixed rational standing for that double.  No theorem below
depends on its numeric value, only on both `deg` and `°` table
entries sharing it. -/
def Quantity_Degree_value : ℚ := 314159265358979323846 / (180 * 10 ^ 20)

/-- The external OpenCASCADE constant `Quantity_Meter.value()`:
one meter expressed in the millimeter base. -/
def Quantity_Meter_value : ℚ := 1000

namespace Internal

/-- `Mayo::Internal::symbol`: canonical base symbol of every `Unit`
(unit_system.cpp lines 40-63). -/
def symbol (unit : Unit) : String :=
  match unit with
  | Unit.None => ""
  | Unit.Length => "m"
  | Unit.Mass => "kg"
  | Unit.Time => "s"
  | Unit.ElectricCurrent => "A"
  | Unit.ThermodynamicTemperature => "K"
  | Unit.AmountOfSubstance => "mol"
  | Unit.LuminousIntensity => "cd"
  | Unit.Angle => "rad"
  | Unit.Area => "m²"
  | Unit.Volume => "m³"
  | Unit.Velocity => "m/s"
  | Unit.Acceleration => "m/s²"
  | Unit.Density => "kg/m³"
  | Unit.Pressure => "kg/m.s²"

/-- `Mayo::Internal::UnitInfo`: a static table entry associating a
`Unit` with a display symbol and a scale factor. -/
structure UnitInfo where
  unit : Unit
  str : String
  factor : ℚ
deriving DecidableEq, Repr

/-- `Mayo::Internal::arrayUnitInfo_SI` (unit_system.cpp lines 70-104),
in source order, duplicates included. -/
def arrayUnitInfo_SI : List UnitInfo :=
  [ ⟨Unit.Length, "mm", 1⟩,
    ⟨Unit.Length, "m", 1000⟩,
    ⟨Unit.Length, "nm", 1e-6⟩,
    ⟨Unit.Length, "µm", 0.001⟩,
    ⟨Unit.Length, "mm", 1⟩,
    ⟨Unit.Length, "m", 1000⟩,
    ⟨Unit.Length, "km", 1e6⟩,
    ⟨Unit.Angle, "rad", 1⟩,
    ⟨Unit.Angle, "deg", Quantity_Degree_value⟩,
    ⟨Unit.Angle, "°", Quantity_Degree_value⟩,
    ⟨Unit.Area, "mm²", 1⟩,
    ⟨Unit.Area, "m²", 1e6⟩,
    ⟨Unit.Area, "km²", 1e12⟩,
    ⟨Unit.Volume, "mm³", 1⟩,
    ⟨Unit.Volume, "m³", 1e9⟩,
    ⟨Unit.Volume, "km³", 1e18⟩,
    ⟨Unit.Velocity, "mm/s", 1⟩,
    ⟨Unit.Density, "kg/m³", 1⟩,
    ⟨Unit.Density, "g/m³", 1000⟩,
    ⟨Unit.Density, "g/cm³", 0.001⟩,
    ⟨Unit.Density, "g/mm³", 1e-6⟩,
    ⟨Unit.Pressure, "kPa", 1⟩,
    ⟨Unit.Pressure, "Pa", 0.001⟩,
    ⟨Unit.Pressure, "kPa", 1⟩,
    ⟨Unit.Pressure, "MPa", 1000⟩,
    ⟨Unit.Pressure, "GPa", 1e6⟩ ]

/-- `Mayo::Internal::arrayUnitInfo_ImperialUK` (unit_system.cpp
lines 106-118), in source order.  The foot symbol `'` is written with
its hexadecimal escape. -/
def arrayUnitInfo_ImperialUK : List UnitInfo :=
  [ ⟨Unit.Length, "in", 25.4⟩,
    ⟨Unit.Length, "thou", 0.0254⟩,
    ⟨Unit.Length, "\"", 25.4⟩,
    ⟨Unit.Length, "\x27", 304.8⟩,
    ⟨Unit.Length, "yd", 914.4⟩,
    ⟨Unit.Length, "mi", 1609344⟩,
    ⟨Unit.Area, "in²", 654.16⟩,
    ⟨Unit.Volume, "in³", 16387.064⟩,
    ⟨Unit.Velocity, "in/min", 25.4 / 60⟩ ]

/-- `Mayo::Internal::translateSI` (unit_system.cpp lines 120-138). -/
def translateSI (value : ℚ) (unit : Unit) : TranslateResult :=
  match unit with
  | Unit.Length => ⟨value, some "mm", 1⟩
  | Unit.Area => ⟨value, some "mm²", 1⟩
  | Unit.Volume => ⟨value, some "mm³", 1⟩
  | Unit.Velocity => ⟨value, some "mm/s", 1⟩
  | Unit.Density => ⟨value, some "kg/m³", 1⟩
  | Unit.Pressure => ⟨value, some "kPa", 1⟩
  | u => ⟨value, some (symbol u), 1⟩

/-- `Mayo::Internal::translateImperialUK` (unit_system.cpp lines
140-154).  Note the Area case: the divisor is `645.16` while the
reported factor is `654.16`, exactly as in the source. -/
def translateImperialUK (value : ℚ) (unit : Unit) : TranslateResult :=
  match unit with
  | Unit.Length => ⟨value / 25.4, some "in", 25.4⟩
  | Unit.Area => ⟨value / 645.16, some "in²", 654.16⟩
  | Unit.Volume => ⟨value / 16387.064, some "in³", 16387.064⟩
  | Unit.Velocity => ⟨value / (25.4 / 60), some "in/min", 25.4 / 60⟩
  | u => ⟨value, some (symbol u), 1⟩

end Internal

namespace UnitSystem

/-- `Mayo::UnitSystem::translate` (unit_system.cpp lines 251-262):
dispatch on the schema.  The schema enumeration is total here, so the
unreachable `assert(false)` branch has no counterpart. -/
def translate (schema : Schema) (value : ℚ) (unit : Unit) : TranslateResult :=
  match schema with
  | Schema.SI => Internal.translateSI value unit
  | Schema.ImperialUK => Internal.translateImperialUK value unit

end UnitSystem

/-! ### The leading-number parser

`parseQuantity` delegates the numeric literal to the external
`fast_float::from_chars` library, which is not part of this
repository.  Modelled from the spec: a locale-independent parser of
standard decimal/exponential floating-point literals — an optional
leading minus sign, a digit string with an optional fractional part
(at least one digit overall), and an optional `e`/`E` exponent that
is rolled back when no exponent digits follow, returning the exact
rational value and the unconsumed suffix (`none` when no valid
leading number exists). -/

/-- Numeric value of a decimal digit character. -/
def digitVal (c : Char) : Nat := c.toNat - 48

/-- Split a character list into its longest prefix of decimal digits
(as digit values) and the remaining suffix. -/
def takeDigits : List Char → List Nat × List Char
  | [] => ([], [])
  | c :: cs =>
    if c.isDigit then
      (digitVal c :: (takeDigits cs).1, (takeDigits cs).2)
    else ([], c :: cs)

/-- Value of a big-endian digit list. -/
def digitsToNat (ds : List Nat) : Nat := ds.foldl (fun a d => 10 * a + d) 0

/-- Exact rational value of a mantissa with integer digits `ds` and
fraction digits `fs`. -/
def mantVal (ds fs : List Nat) : ℚ :=
  (digitsToNat (ds ++ fs) : ℚ) / 10 ^ fs.length

/-- Modelled from the spec: the mantissa part of the `fast_float`
grammar — integer digits, then an optional `.` with fraction digits;
fails when no digit occurs at all. -/
def parseMant (l : List Char) : Option (ℚ × List Char) :=
  let p := takeDigits l
  match p.2 with
  | [] => if p.1.isEmpty then none else some ((digitsToNat p.1 : ℚ), [])
  | c :: r2 =>
    if c = '.' then
      let q := takeDigits r2
      if p.1.isEmpty && q.1.isEmpty then none
      else some (mantVal p.1 q.1, q.2)
    else if p.1.isEmpty then none else some ((digitsToNat p.1 : ℚ), c :: r2)

/-- Apply exponent digits read after an `e`/`E` marker to mantissa
`m`; when no digit follows, roll back to `orig` (the suffix starting
at the marker), as `fast_float` does. -/
def expDigits (m : ℚ) (neg : Bool) (orig r : List Char) : ℚ × List Char :=
  let p := takeDigits r
  if p.1.isEmpty then (m, orig)
  else if neg then (m / 10 ^ digitsToNat p.1, p.2)
  else (m * 10 ^ digitsToNat p.1, p.2)

/-- Read an optional exponent sign and the exponent digits after an
`e`/`E` marker; `orig` is the suffix starting at the marker, restored
on rollback. -/
def parseExpCore (m : ℚ) (orig r : List Char) : ℚ × List Char :=
  match r with
  | [] => expDigits m false orig r
  | c2 :: r2 =>
    if c2 = '+' then expDigits m false orig r2
    else if c2 = '-' then expDigits m true orig r2
    else expDigits m false orig (c2 :: r2)

/-- Modelled from the spec: the optional exponent part of the
`fast_float` grammar, with rollback when the marker is not followed
by at least one digit. -/
def parseExp (m : ℚ) (l : List Char) : ℚ × List Char :=
  match l with
  | [] => (m, [])
  | c :: r => if c = 'e' ∨ c = 'E' then parseExpCore m (c :: r) r else (m, c :: r)

/-- Parse mantissa and optional exponent, negating the result when a
minus sign was consumed. -/
def parseAfterSign (neg : Bool) (r : List Char) : Option (ℚ × List Char) :=
  match parseMant r with
  | none => none
  | some (m, r2) =>
    let p := parseExp m r2
    some (if neg then -p.1 else p.1, p.2)

/-- Modelled from the spec: `fast_float::from_chars` on a character
list — optional minus sign, mantissa, optional exponent — returning
the parsed exact value and the unconsumed suffix. -/
def parseFloat (l : List Char) : Option (ℚ × List Char) :=
  match l with
  | [] => parseAfterSign false []
  | c :: r => if c = '-' then parseAfterSign true r else parseAfterSign false (c :: r)

namespace UnitSystem

/-- `Mayo::UnitSystem::parseQuantity` (unit_system.cpp lines
264-297).  The first component models the returned
`TranslateResult` (`none` for the failure sentinel `{}`); the second
models the final value stored through `ptrUnit`, which is assigned
`Unit::None` before any parse attempt and overwritten only on a
table match. -/
def parseQuantity (strQuantity : String) : Option TranslateResult × Unit :=
  match parseFloat strQuantity.data with
  | none => (none, Unit.None)
  | some (v, rest) =>
    if rest.isEmpty then (some ⟨v, none, 1⟩, Unit.None)
    else
      match Internal.arrayUnitInfo_SI.find? (fun ui => ui.str == String.mk rest) with
      | some ui => (some ⟨v, some ui.str, ui.factor⟩, ui.unit)
      | none =>
        match Internal.arrayUnitInfo_ImperialUK.find? (fun ui => ui.str == String.mk rest) with
        | some ui => (some ⟨v, some ui.str, ui.factor⟩, ui.unit)
        | none => (none, Unit.None)

/-- `Mayo::UnitSystem::radians` (unit_system.cpp lines 299-302). -/
def radians (angle : ℚ) : TranslateResult := ⟨angle, some "rad", 1⟩

/-- `Mayo::UnitSystem::degrees` (unit_system.cpp lines 304-309). -/
def degrees (angle : ℚ) : TranslateResult :=
  ⟨angle / Quantity_Degree_value, some "°", Quantity_Degree_value⟩

/-- `Mayo::UnitSystem::meters` (unit_system.cpp lines 311-316). -/
def meters (length : ℚ) : TranslateResult :=
  ⟨length / Quantity_Meter_value, some "m", Quantity_Meter_value⟩

/-- `Mayo::UnitSystem::millimeters` (unit_system.cpp lines 318-321). -/
def millimeters (length : ℚ) : TranslateResult := ⟨length, some "mm", 1⟩

/-- `Mayo::UnitSystem::cubicMillimeters` (unit_system.cpp lines 323-326). -/
def cubicMillimeters (volume : ℚ) : TranslateResult := ⟨volume, some "mm³", 1⟩

/-- `Mayo::UnitSystem::millimetersPerSecond` (unit_system.cpp lines 328-331). -/
def millimetersPerSecond (speed : ℚ) : TranslateResult := ⟨speed, some "mm/s", 1⟩

/-- `Mayo::UnitSystem::seconds` (unit_system.cpp lines 333-336). -/
def seconds (duration : ℚ) : TranslateResult := ⟨duration, some "s", 1⟩

end UnitSystem

/-! ### Lemmas about the number parser

The parser only ever stops in front of a character it cannot consume,
so appending more text to a fully consumed input leaves the parsed
value unchanged whenever the first appended character is not a digit,
a decimal point, or an exponent marker.  No table symbol starts with
such a character. -/

theorem takeDigits_fst_append (l t : List Char) (ds : List Nat) (b : Char)
    (r : List Char) (h : takeDigits l = (ds, b :: r)) :
    takeDigits (l ++ t) = (ds, b :: (r ++ t)) := by
  induction l generalizing ds with
  | nil => simp [takeDigits] at h
  | cons c cs ih =>
    by_cases hc : c.isDigit
    · rcases hcs : takeDigits cs with ⟨ds1, r1⟩
      rw [takeDigits] at h
      simp only [hc, if_true, hcs, Prod.mk.injEq] at h
      rcases h with ⟨rfl, rfl⟩
      have h2 := ih ds1 hcs
      rw [List.cons_append, takeDigits]
      simp [hc, h2]
    · rw [takeDigits] at h
      simp only [hc, if_false, Prod.mk.injEq, List.cons.injEq] at h
      rcases h with ⟨rfl, rfl, rfl⟩
      rw [List.cons_append, takeDigits]
      simp [hc]

theorem takeDigits_fst_all (l : List Char) (ds : List Nat) (c : Char)
    (cs : List Char) (h : takeDigits l = (ds, []))
    (hc : c.isDigit = false) :
    takeDigits (l ++ c :: cs) = (ds, c :: cs) := by
  induction l generalizing ds with
  | nil =>
    simp only [takeDigits, Prod.mk.injEq] at h
    rcases h with ⟨rfl, -⟩
    simp [takeDigits, hc]
  | cons a as ih =>
    by_cases ha : a.isDigit
    · rcases has : takeDigits as with ⟨ds1, r1⟩
      rw [takeDigits] at h
      simp only [ha, if_true, has, Prod.mk.injEq] at h
      rcases h with ⟨rfl, rfl⟩
      have h2 := ih ds1 has
      rw [List.cons_append, takeDigits]
      simp [ha, h2]
    · rw [takeDigits] at h
      simp [ha] at h

theorem parseMant_append (l t : List Char) (m : ℚ) (b : Char)
    (r : List Char) (h : parseMant l = some (m, b :: r)) :
    parseMant (l ++ t) = some (m, b :: (r ++ t)) := by
  rcases h1 : takeDigits l with ⟨ds, rem⟩
  rcases rem with - | ⟨c, r2⟩
  · simp only [parseMant, h1] at h
    by_cases hds : ds.isEmpty <;> simp [hds] at h
  · by_cases hdot : c = '.'
    · rcases h2 : takeDigits r2 with ⟨fs, r3⟩
      simp only [parseMant, h1, if_pos hdot, h2] at h
      by_cases hee : ds.isEmpty && fs.isEmpty
      · simp [hee] at h
      · rw [if_neg (by simp [hee])] at h
        have h' : mantVal ds fs = m ∧ r3 = b :: r := by simpa using h
        rcases h' with ⟨rfl, rfl⟩
        have g1 := takeDigits_fst_append l t ds _ _ h1
        have g2 := takeDigits_fst_append r2 t fs _ _ h2
        simp only [parseMant, g1, if_pos hdot, g2]
        rw [if_neg (by simp [hee])]
    · simp only [parseMant, h1, if_neg hdot] at h
      by_cases hds : ds.isEmpty
      · simp [hds] at h
      · rw [if_neg (by simp [hds])] at h
        have h' : (digitsToNat ds : ℚ) = m ∧ c = b ∧ r2 = r := by
          simpa using h
        rcases h' with ⟨rfl, rfl, rfl⟩
        have g1 := takeDigits_fst_append l t ds _ _ h1
        simp only [parseMant, g1, if_neg hdot]
        rw [if_neg (by simp [hds])]

theorem parseMant_all (l : List Char) (m : ℚ) (c : Char) (cs : List Char)
    (h : parseMant l = some (m, [])) (hc : c.isDigit = false)
    (hdot : c ≠ '.') :
    parseMant (l ++ c :: cs) = some (m, c :: cs) := by
  rcases h1 : takeDigits l with ⟨ds, rem⟩
  rcases rem with - | ⟨b, r2⟩
  · simp only [parseMant, h1] at h
    by_cases hds : ds.isEmpty
    · simp [hds] at h
    · rw [if_neg (by simp [hds])] at h
      have h' : (digitsToNat ds : ℚ) = m := by simpa using h
      have g1 := takeDigits_fst_all l ds c cs h1 hc
      simp only [parseMant, g1, if_neg hdot]
      rw [if_neg (by simp [hds])]
      rw [h']
  · by_cases hbdot : b = '.'
    · rcases h2 : takeDigits r2 with ⟨fs, r3⟩
      simp only [parseMant, h1, if_pos hbdot, h2] at h
      by_cases hee : ds.isEmpty && fs.isEmpty
      · simp [hee] at h
      · rw [if_neg (by simp [hee])] at h
        have h' : mantVal ds fs = m ∧ r3 = [] := by simpa using h
        rcases h' with ⟨rfl, rfl⟩
        have g1 := takeDigits_fst_append l (c :: cs) ds _ _ h1
        have g2 := takeDigits_fst_all r2 fs c cs h2 hc
        simp only [parseMant, g1, if_pos hbdot, g2]
        rw [if_neg (by simp [hee])]
    · simp only [parseMant, h1, if_neg hbdot] at h
      by_cases hds : ds.isEmpty
      · simp [hds] at h
      · rw [if_neg (by simp [hds])] at h
        simp at h

theorem expDigits_all (m : ℚ) (neg : Bool) (o o2 r : List Char) (w : ℚ)
    (c : Char) (cs : List Char) (ho : o ≠ [])
    (h : expDigits m neg o r = (w, [])) (hc : c.isDigit = false) :
    expDigits m neg o2 (r ++ c :: cs) = (w, c :: cs) := by
  rcases h2 : takeDigits r with ⟨ds, r3⟩
  by_cases hds : ds.isEmpty = true
  · exfalso
    have h' : m = w ∧ o = [] := by simpa [expDigits, h2, hds] using h
    exact ho h'.2
  · rcases neg with - | -
    · have h' : m * 10 ^ digitsToNat ds = w ∧ r3 = [] := by
        simpa [expDigits, h2, hds] using h
      rcases h' with ⟨hw, rfl⟩
      have g := takeDigits_fst_all r ds c cs h2 hc
      simp [expDigits, g, hds, hw]
    · have h' : m / 10 ^ digitsToNat ds = w ∧ r3 = [] := by
        simpa [expDigits, h2, hds] using h
      rcases h' with ⟨hw, rfl⟩
      have g := takeDigits_fst_all r ds c cs h2 hc
      simp [expDigits, g, hds, hw]

theorem parseExpCore_all (m : ℚ) (o o2 r : List Char) (w : ℚ) (c : Char)
    (cs : List Char) (ho : o ≠ []) (h : parseExpCore m o r = (w, []))
    (hc : c.isDigit = false) :
    parseExpCore m o2 (r ++ c :: cs) = (w, c :: cs) := by
  rcases r with - | ⟨c2, r2⟩
  · have h' : m = w ∧ o = [] := by
      simpa [parseExpCore, expDigits, takeDigits] using h
    exact absurd h'.2 ho
  · by_cases hplus : c2 = '+'
    · rw [parseExpCore, if_pos hplus] at h
      rw [List.cons_append, parseExpCore, if_pos hplus]
      exact expDigits_all m false o o2 r2 w c cs ho h hc
    · by_cases hminus : c2 = '-'
      · rw [parseExpCore, if_neg hplus, if_pos hminus] at h
        rw [List.cons_append, parseExpCore, if_neg hplus, if_pos hminus]
        exact expDigits_all m true o o2 r2 w c cs ho h hc
      · rw [parseExpCore, if_neg hplus, if_neg hminus] at h
        rw [List.cons_append, parseExpCore, if_neg hplus, if_neg hminus]
        have g := expDigits_all m false o o2 (c2 :: r2) w c cs ho h hc
        rw [List.cons_append] at g
        exact g

theorem parseExp_all (m : ℚ) (l : List Char) (w : ℚ) (c : Char)
    (cs : List Char) (h : parseExp m l = (w, []))
    (hc : c.isDigit = false) (he : c ≠ 'e') (hE : c ≠ 'E') :
    parseExp m (l ++ c :: cs) = (w, c :: cs) := by
  rcases l with - | ⟨a, r⟩
  · simp only [parseExp, Prod.mk.injEq] at h
    rw [List.nil_append, parseExp, if_neg (by simp [he, hE])]
    rw [h.1]
  · by_cases hae : a = 'e' ∨ a = 'E'
    · rw [parseExp, if_pos hae] at h
      rw [List.cons_append, parseExp, if_pos hae]
      exact parseExpCore_all m (a :: r) (a :: (r ++ c :: cs)) r w c cs
        (by simp) h hc
    · rw [parseExp, if_neg hae] at h
      rcases Prod.mk.injEq .. ▸ h with ⟨-, h2⟩
      exact absurd h2.symm (by simp)

theorem parseAfterSign_all (neg : Bool) (r : List Char) (v : ℚ) (c : Char)
    (cs : List Char) (h : parseAfterSign neg r = some (v, []))
    (hc : c.isDigit = false) (hdot : c ≠ '.') (he : c ≠ 'e')
    (hE : c ≠ 'E') :
    parseAfterSign neg (r ++ c :: cs) = some (v, c :: cs) := by
  rcases h1 : parseMant r with - | ⟨m, r2⟩
  · simp only [parseAfterSign, h1] at h
    simp at h
  · simp only [parseAfterSign, h1] at h
    rcases h2 : parseExp m r2 with ⟨w, r3⟩
    rw [h2] at h
    simp only [Option.some.injEq, Prod.mk.injEq] at h
    rcases h with ⟨rfl, rfl⟩
    rcases r2 with - | ⟨b, r4⟩
    · have g1 := parseMant_all r m c cs h1 hc hdot
      have g2 := parseExp_all m [] w c cs h2 hc he hE
      simp only [List.nil_append] at g2
      simp only [parseAfterSign, g1, g2]
    · have g1 := parseMant_append r (c :: cs) m b r4 h1
      have g2 := parseExp_all m (b :: r4) w c cs h2 hc he hE
      rw [List.cons_append] at g2
      simp only [parseAfterSign, g1, g2]

theorem parseFloat_all (l : List Char) (v : ℚ) (c : Char) (cs : List Char)
    (h : parseFloat l = some (v, [])) (hc : c.isDigit = false)
    (hdot : c ≠ '.') (he : c ≠ 'e') (hE : c ≠ 'E') :
    parseFloat (l ++ c :: cs) = some (v, c :: cs) := by
  rcases l with - | ⟨a, r⟩
  · rw [parseFloat] at h
    simp [parseAfterSign, parseMant, takeDigits] at h
  · by_cases hminus : a = '-'
    · rw [parseFloat, if_pos hminus] at h
      have g := parseAfterSign_all true r v c cs h hc hdot he hE
      rw [List.cons_append, parseFloat, if_pos hminus]
      exact g
    · rw [parseFloat, if_neg hminus] at h
      have g := parseAfterSign_all false (a :: r) v c cs h hc hdot he hE
      rw [List.cons_append] at g
      rw [List.cons_append, parseFloat, if_neg hminus]
      exact g

/-! ### Structural lemmas about parseQuantity -/

theorem parseQuantity_nofloat (s : String)
    (hp : parseFloat s.data = none) :
    UnitSystem.parseQuantity s = (none, Unit.None) := by
  simp [UnitSystem.parseQuantity, hp]

theorem parseQuantity_nosuffix (s : String) (v : ℚ)
    (hp : parseFloat s.data = some (v, [])) :
    UnitSystem.parseQuantity s = (some ⟨v, none, 1⟩, Unit.None) := by
  simp [UnitSystem.parseQuantity, hp]

theorem parseQuantity_found (s : String) (v : ℚ) (b : Char)
    (rs : List Char) (ui : Internal.UnitInfo)
    (hp : parseFloat s.data = some (v, b :: rs))
    (hf : (Internal.arrayUnitInfo_SI ++ Internal.arrayUnitInfo_ImperialUK).find?
      (fun u => u.str == String.mk (b :: rs)) = some ui) :
    UnitSystem.parseQuantity s = (some ⟨v, some ui.str, ui.factor⟩, ui.unit) := by
  rw [List.find?_append] at hf
  rcases hSI : Internal.arrayUnitInfo_SI.find?
      (fun u => u.str == String.mk (b :: rs)) with - | u
  · rw [hSI, Option.none_or] at hf
    simp [UnitSystem.parseQuantity, hp, hSI, hf]
  · rw [hSI] at hf
    have hu : u = ui := Option.some.inj hf
    subst hu
    simp [UnitSystem.parseQuantity, hp, hSI]

theorem parseQuantity_notfound (s : String) (v : ℚ) (b : Char)
    (rs : List Char)
    (hp : parseFloat s.data = some (v, b :: rs))
    (hf : (Internal.arrayUnitInfo_SI ++ Internal.arrayUnitInfo_ImperialUK).find?
      (fun u => u.str == String.mk (b :: rs)) = none) :
    UnitSystem.parseQuantity s = (none, Unit.None) := by
  rw [List.find?_append] at hf
  rcases hSI : Internal.arrayUnitInfo_SI.find?
      (fun u => u.str == String.mk (b :: rs)) with - | u
  · rw [hSI, Option.none_or] at hf
    simp [UnitSystem.parseQuantity, hp, hSI, hf]
  · rw [hSI] at hf
    simp [Option.or] at hf

/-! ### Facts about the static tables -/

theorem table_head_ok (ui : Internal.UnitInfo)
    (h : ui ∈ Internal.arrayUnitInfo_SI ++ Internal.arrayUnitInfo_ImperialUK) :
    ∃ c cs, ui.str.data = c :: cs ∧ c.isDigit = false ∧ c ≠ '.' ∧
      c ≠ 'e' ∧ c ≠ 'E' := by
  fin_cases h <;>
    exact ⟨_, _, rfl, by decide, by decide, by decide, by decide⟩

theorem table_first_match (ui : Internal.UnitInfo)
    (h : ui ∈ Internal.arrayUnitInfo_SI ++ Internal.arrayUnitInfo_ImperialUK) :
    (Internal.arrayUnitInfo_SI ++ Internal.arrayUnitInfo_ImperialUK).find?
      (fun u => u.str == ui.str) = some ui := by
  fin_cases h <;> rfl

/-! ### Claim theorems -/

/-- C1: the claimed invariant `v = result.value * result.factor` for
every schema and unit fails on the code at schema `ImperialUK`, unit
`Area`: `translateImperialUK` divides the value by `645.16` but
reports factor `654.16`, so the product of the returned value and
factor differs from the input value (here at `v = 1`). -/
theorem c1_area_factor_violation :
    (UnitSystem.translate Schema.ImperialUK 1 Unit.Area).value *
      (UnitSystem.translate Schema.ImperialUK 1 Unit.Area).factor ≠ 1 := by
  show (1 / 645.16 : ℚ) * 654.16 ≠ 1
  norm_num

/-- The claimed product invariant of C1 does hold at every other
(schema, unit) pair, confirming the Area factor as an isolated slip. -/
theorem translate_value_mul_factor (schema : Schema) (v : ℚ) (u : Unit)
    (h : ¬(schema = Schema.ImperialUK ∧ u = Unit.Area)) :
    (UnitSystem.translate schema v u).value *
      (UnitSystem.translate schema v u).factor = v := by
  cases schema <;> cases u <;> try exact mul_one v
  · show v / 25.4 * 25.4 = v
    exact div_mul_cancel₀ v (by norm_num)
  · exact absurd ⟨rfl, rfl⟩ h
  · show v / 16387.064 * 16387.064 = v
    exact div_mul_cancel₀ v (by norm_num)
  · show v / (25.4 / 60) * (25.4 / 60) = v
    exact div_mul_cancel₀ v (by norm_num)

/-- C2: for every value `v`, `translate(ImperialUK, v, Length)` is
exactly `(v/25.4, "in", 25.4)` and `translate(ImperialUK, v,
Velocity)` is exactly `(v/(25.4/60), "in/min", 25.4/60)`. -/
theorem c2_imperialUK_length_velocity (v : ℚ) :
    UnitSystem.translate Schema.ImperialUK v Unit.Length
        = ⟨v / 25.4, some "in", 25.4⟩ ∧
      UnitSystem.translate Schema.ImperialUK v Unit.Velocity
        = ⟨v / (25.4 / 60), some "in/min", 25.4 / 60⟩ :=
  ⟨rfl, rfl⟩

/-- C3: for every unit with a schema-specific case in the SI
translator (Length, Area, Volume, Velocity, Density, Pressure) and
every value `v`, `translate(SI, v, u)` returns factor `1` and value
`v`. -/
theorem c3_si_identity (v : ℚ) (u : Unit)
    (hu : u ∈ [Unit.Length, Unit.Area, Unit.Volume, Unit.Velocity,
      Unit.Density, Unit.Pressure]) :
    (UnitSystem.translate Schema.SI v u).factor = 1 ∧
      (UnitSystem.translate Schema.SI v u).value = v := by
  fin_cases hu <;> exact ⟨rfl, rfl⟩

/-- Witness for C3, at `v = 7` and `u = Area`. -/
theorem c3_si_identity_witness :
    (UnitSystem.translate Schema.SI 7 Unit.Area).factor = 1 ∧
      (UnitSystem.translate Schema.SI 7 Unit.Area).value = 7 :=
  c3_si_identity 7 Unit.Area (by simp)

/-- C4: `parseQuantity` returns the failure sentinel iff the leading
number parse fails or the non-empty suffix matches no entry of either
table; in both failure cases the output unit is `None`. -/
theorem c4_failure_iff (s : String) :
    ((UnitSystem.parseQuantity s).1 = none ↔
      parseFloat s.data = none ∨
        ∃ v rest, parseFloat s.data = some (v, rest) ∧ rest ≠ [] ∧
          (Internal.arrayUnitInfo_SI ++
            Internal.arrayUnitInfo_ImperialUK).find?
            (fun u => u.str == String.mk rest) = none) ∧
    ((UnitSystem.parseQuantity s).1 = none →
      (UnitSystem.parseQuantity s).2 = Unit.None) := by
  rcases hp : parseFloat s.data with - | ⟨v, rest⟩
  · rw [parseQuantity_nofloat s hp]
    exact ⟨⟨fun _ => Or.inl rfl, fun _ => rfl⟩, fun _ => rfl⟩
  · rcases rest with - | ⟨b, rs⟩
    · rw [parseQuantity_nosuffix s v hp]
      constructor
      · constructor
        · intro h
          exact absurd h (by simp)
        · intro h
          rcases h with h | ⟨v2, rest2, h2, hne, -⟩
          · exact absurd h (by simp)
          · have hr := congrArg Prod.snd (Option.some.inj h2)
            exact absurd hr.symm hne
      · intro h
        exact absurd h (by simp)
    · rcases hf : (Internal.arrayUnitInfo_SI ++
          Internal.arrayUnitInfo_ImperialUK).find?
          (fun u => u.str == String.mk (b :: rs)) with - | ui
      · rw [parseQuantity_notfound s v b rs hp hf]
        exact ⟨⟨fun _ => Or.inr ⟨v, b :: rs, rfl, by simp, hf⟩,
          fun _ => rfl⟩, fun _ => rfl⟩
      · rw [parseQuantity_found s v b rs ui hp hf]
        constructor
        · constructor
          · intro h
            exact absurd h (by simp)
          · intro h
            rcases h with h | ⟨v2, rest2, h2, hne, hnone⟩
            · exact absurd h (by simp)
            · have hr : b :: rs = rest2 :=
                congrArg Prod.snd (Option.some.inj h2)
              rw [← hr] at hnone
              rw [hf] at hnone
              exact absurd hnone (by simp)
        · intro h
          exact absurd h (by simp)

/-- Witness for C4, at input `"abc"`. -/
theorem c4_failure_iff_witness :
    (UnitSystem.parseQuantity "abc").1 = none ∧
      (UnitSystem.parseQuantity "abc").2 = Unit.None := by
  have h := c4_failure_iff "abc"
  have h1 : (UnitSystem.parseQuantity "abc").1 = none :=
    h.1.mpr (Or.inl rfl)
  exact ⟨h1, h.2 h1⟩

/-- C5: with a valid leading number and a non-empty suffix, the SI
table is scanned first and then the ImperialUK table (modelled by a
single scan of their concatenation); the first exact symbol match
supplies the output unit and the returned symbol and factor; and
`parseQuantity "25.4mm"` returns `(25.4, "mm", 1)` with unit
`Length`. -/
theorem c5_scan_order_and_example :
    (∀ (s : String) (v : ℚ) (b : Char) (rs : List Char)
        (ui : Internal.UnitInfo),
      parseFloat s.data = some (v, b :: rs) →
      (Internal.arrayUnitInfo_SI ++
        Internal.arrayUnitInfo_ImperialUK).find?
        (fun u => u.str == String.mk (b :: rs)) = some ui →
      UnitSystem.parseQuantity s
        = (some ⟨v, some ui.str, ui.factor⟩, ui.unit)) ∧
    UnitSystem.parseQuantity "25.4mm"
      = (some ⟨25.4, some "mm", 1⟩, Unit.Length) := by
  refine ⟨parseQuantity_found, ?_⟩
  have h0 : UnitSystem.parseQuantity "25.4mm"
      = (some ⟨mantVal [2, 5] [4], some "mm", 1⟩, Unit.Length) := rfl
  rw [h0]
  have h1 : mantVal [2, 5] [4] = 25.4 := by
    norm_num [mantVal, digitsToNat]
  rw [h1]

/-- Witness for C5: the scan property applied at input `"3mm"`. -/
theorem c5_scan_order_witness :
    UnitSystem.parseQuantity "3mm"
      = (some ⟨(digitsToNat [3] : ℚ), some "mm", 1⟩, Unit.Length) :=
  c5_scan_order_and_example.1 "3mm" (digitsToNat [3] : ℚ) 'm' ['m']
    ⟨Unit.Length, "mm", 1⟩ rfl rfl

/-- C6: round-trip — for every entry of the two static tables and
every rendering `s` of a value `v` accepted in full by the number
parser, parsing `s` followed by the entry's symbol recovers the same
value, unit and factor. -/
theorem c6_round_trip (ui : Internal.UnitInfo)
    (hui : ui ∈ Internal.arrayUnitInfo_SI ++ Internal.arrayUnitInfo_ImperialUK)
    (s : String) (v : ℚ) (hs : parseFloat s.data = some (v, [])) :
    UnitSystem.parseQuantity (s ++ ui.str)
      = (some ⟨v, some ui.str, ui.factor⟩, ui.unit) := by
  obtain ⟨c, cs, hdata, hc, hdot, he, hE⟩ := table_head_ok ui hui
  have hext := parseFloat_all s.data v c cs hs hc hdot he hE
  have hp : parseFloat (s ++ ui.str).data = some (v, c :: cs) := by
    rw [String.data_append, hdata]
    exact hext
  have hmk : String.mk (c :: cs) = ui.str := by
    rw [← hdata]
  have hf : (Internal.arrayUnitInfo_SI ++
      Internal.arrayUnitInfo_ImperialUK).find?
      (fun u => u.str == String.mk (c :: cs)) = some ui := by
    rw [hmk]
    exact table_first_match ui hui
  exact parseQuantity_found (s ++ ui.str) v c cs ui hp hf

/-- Witness for C6, at the first SI entry `(Length, "mm", 1)` and the
rendering `"2"`. -/
theorem c6_round_trip_witness :
    UnitSystem.parseQuantity ("2" ++ "mm")
      = (some ⟨(digitsToNat [2] : ℚ), some "mm", 1⟩, Unit.Length) :=
  c6_round_trip ⟨Unit.Length, "mm", 1⟩
    (by simp [Internal.arrayUnitInfo_SI]) "2" (digitsToNat [2] : ℚ) rfl

/-- C7: for every unit the schema's translator does not special-case,
`translate` returns the value unchanged with factor `1` and the
canonical base symbol from the total Unit-to-symbol mapping. -/
theorem c7_default_branch (v : ℚ) (u : Unit) :
    (u ∉ [Unit.Length, Unit.Area, Unit.Volume, Unit.Velocity,
        Unit.Density, Unit.Pressure] →
      UnitSystem.translate Schema.SI v u
        = ⟨v, some (Internal.symbol u), 1⟩) ∧
    (u ∉ [Unit.Length, Unit.Area, Unit.Volume, Unit.Velocity] →
      UnitSystem.translate Schema.ImperialUK v u
        = ⟨v, some (Internal.symbol u), 1⟩) := by
  constructor <;> intro hu <;> cases u <;>
    first
      | rfl
      | exact absurd (by simp) hu

/-- Witness for C7, at `v = 3` and `u = Mass`. -/
theorem c7_default_branch_witness :
    UnitSystem.translate Schema.SI 3 Unit.Mass
        = ⟨3, some (Internal.symbol Unit.Mass), 1⟩ ∧
      UnitSystem.translate Schema.ImperialUK 3 Unit.Mass
        = ⟨3, some (Internal.symbol Unit.Mass), 1⟩ := by
  have h := c7_default_branch 3 Unit.Mass
  exact ⟨h.1 (by simp), h.2 (by simp)⟩

/-- C8: a valid leading number with an empty suffix yields the parsed
value with no symbol and factor `1`, unit left `None`; in particular
`parseQuantity "42"` returns `(42, no-symbol, 1)`. -/
theorem c8_empty_suffix :
    (∀ (s : String) (v : ℚ), parseFloat s.data = some (v, []) →
      UnitSystem.parseQuantity s = (some ⟨v, none, 1⟩, Unit.None)) ∧
    UnitSystem.parseQuantity "42" = (some ⟨42, none, 1⟩, Unit.None) := by
  refine ⟨parseQuantity_nosuffix, ?_⟩
  have h0 : UnitSystem.parseQuantity "42"
      = (some ⟨(digitsToNat [4, 2] : ℚ), none, 1⟩, Unit.None) := rfl
  rw [h0]
  norm_num [digitsToNat]

/-- Witness for C8, at input `"7"`. -/
theorem c8_empty_suffix_witness :
    UnitSystem.parseQuantity "7"
      = (some ⟨(digitsToNat [7] : ℚ), none, 1⟩, Unit.None) :=
  c8_empty_suffix.1 "7" (digitsToNat [7] : ℚ) rfl

/-- C9: `degrees` divides a radian-base magnitude by the
degree-to-radian constant and returns that constant as the factor
with symbol `"°"`; `meters` divides a millimeter-base magnitude by
the meter-to-millimeter constant and returns it as the factor with
symbol `"m"`; neither function takes a schema argument. -/
theorem c9_degrees_meters (angle length : ℚ) :
    UnitSystem.degrees angle
        = ⟨angle / Quantity_Degree_value, some "°", Quantity_Degree_value⟩ ∧
      UnitSystem.meters length
        = ⟨length / Quantity_Meter_value, some "m", Quantity_Meter_value⟩ :=
  ⟨rfl, rfl⟩

/-- C10: a non-empty suffix found in neither table is rejected with
the failure sentinel and output unit `None`; in particular the base
symbols `"s"` (Time) and `"kg"` (Mass) emitted by translate's
fallback are not parseable, so the round trip does not extend to
fallback outputs. -/
theorem c10_untabled_suffix_rejected :
    (∀ (s : String) (v : ℚ) (b : Char) (rs : List Char),
      parseFloat s.data = some (v, b :: rs) →
      (Internal.arrayUnitInfo_SI ++
        Internal.arrayUnitInfo_ImperialUK).find?
        (fun u => u.str == String.mk (b :: rs)) = none →
      UnitSystem.parseQuantity s = (none, Unit.None)) ∧
    UnitSystem.parseQuantity "5s" = (none, Unit.None) ∧
    UnitSystem.parseQuantity "2kg" = (none, Unit.None) :=
  ⟨parseQuantity_notfound, rfl, rfl⟩

/-- Witness for C10: the rejection property applied at input `"3K"`
(`"K"` is the base symbol for ThermodynamicTemperature and occurs in
neither table). -/
theorem c10_untabled_suffix_witness :
    UnitSystem.parseQuantity "3K" = (none, Unit.None) :=
  c10_untabled_suffix_rejected.1 "3K" (digitsToNat [3] : ℚ) 'K' [] rfl rfl

end Mayo
